import Mathlib

/-! Snapshot reconciliation in `AgentsVisualization/libs/api_connection.js`.

A shallow embedding of the polling client: the eight module-level arrays become the
fields of `World`, every `async function` becomes a function from the responses the
server gives to its requests and the world before the call to the world after the call
together with the outcome of the returned promise (`Except Fault Unit`).
-/

namespace ApiConnection

/-! ## Data model -/

/-- The `id` field of a record. One category's ids come from one server field and are
primitives of one type, on which the `==` of JavaScript is plain equality. -/
abbrev Id := Nat

/-- A coordinate. Coordinates are only copied by this module, never computed with. -/
abbrev Coord := Int

/-- Three coordinates: the `position` object `{x, y, z}` as well as the array
`[x, y, z]` that `posArray` returns. -/
structure Vec3 where
  x : Coord
  y : Coord
  z : Coord
deriving DecidableEq, Repr

/-- Modelled from the spec: the class `Object3D` of `./object3d.js` (imported at line 11
of `api_connection.js`, its file is not among the sources), "an external value type with
identity, a 3D position, and a previous position slot used for interpolation". A property
of a JavaScript object may be unset, hence the slot `oldPosArray` is an `Option`, `none`
standing for `undefined`. -/
structure Object3D where
  id : Id
  position : Vec3
  oldPosArray : Option Vec3
deriving DecidableEq, Repr

/-- Modelled from the spec: `new Object3D(id, [x, y, z])` of the missing `./object3d.js`.
Section 3 of the specification has the previous position of an entity "equal to
`currentPosition` at creation (zero initial displacement)", so the object comes with the
identity and the position given and with the previous position slot holding that same
position. -/
def Object3D.new (id : Id) (position : Vec3) : Object3D :=
  { id := id, position := position, oldPosArray := some position }

/-- Modelled from the spec: the getter `posArray` of the missing `./object3d.js`, a fresh
array of the three coordinates of `position`. -/
def Object3D.posArray (o : Object3D) : Vec3 :=
  { x := o.position.x, y := o.position.y, z := o.position.z }

/-- A well-formed raw position record `{id, x, y, z}`. -/
structure Record where
  id : Id
  x : Coord
  y : Coord
  z : Coord
deriving DecidableEq, Repr

/-- One element of the array a response carries: a record, or `null`, on which reading
`.id` raises a `TypeError`. An object that lacks a field raises nothing (the field is read
as `undefined` and copied), so among malformed elements only `null` is told apart. -/
inductive Element where
  | null
  | record (r : Record)
deriving DecidableEq, Repr

/-- What `await response.json()` yields when the body is JSON: `null` (every property read
raises), or an object whose expected array field is `none` when it is missing or not
iterable (`for ... of` raises) and the list of its elements otherwise. -/
inductive Json where
  | null
  | object (field : Option (List Element))
deriving DecidableEq, Repr

/-- The outcome of `await fetch(...)`: the request fails in transport, or a response comes
back with its `ok` flag and a body that is JSON (`some`) or not (`none`). -/
inductive Response where
  | failed
  | http (ok : Bool) (body : Option Json)
deriving DecidableEq, Repr

/-- What a JavaScript statement may throw here. -/
inductive Fault where
  | network
  | syntaxError
  | typeError
deriving DecidableEq, Repr

/-- The paths requested from `agent_server_uri`. -/
inductive Endpoint where
  | init
  | update
  | getAgents
  | getPedestrians
  | getObstacles
  | getTrafficLights
  | getRoads
  | getDestinations
  | getSidewalks
  | getPedestrianWalks
deriving DecidableEq, Repr

/-- A line written by `console.log`: a caught error, or `"Error:", message, error`. -/
inductive Logged where
  | caught (e : Fault)
  | serverError
deriving DecidableEq, Repr

/-- The state of the module (lines 17-24) and what it has done to the outside: the
requests sent and the lines logged, oldest first. -/
structure World where
  agents : List Object3D
  pedestrians : List Object3D
  obstacles : List Object3D
  trafficLights : List Object3D
  roads : List Object3D
  destinations : List Object3D
  sidewalks : List Object3D
  pedestrianWalks : List Object3D
  requests : List Endpoint
  console : List Logged
deriving DecidableEq, Repr

/-- The module right after loading: eight empty arrays, nothing requested or logged. -/
def World.initial : World :=
  { agents := [], pedestrians := [], obstacles := [], trafficLights := [], roads := [],
    destinations := [], sidewalks := [], pedestrianWalks := [], requests := [],
    console := [] }

/-- The state of a function body: the world so far and whether a throw is in flight. -/
abbrev Outcome := World × Except Fault Unit

/-! ## Pieces shared by the functions -/

/-- The array `[agent.x, agent.y, agent.z]` built from a record. -/
def Record.pos (r : Record) : Vec3 := { x := r.x, y := r.y, z := r.z }

/-- Lines 81-83, 99-100, 249-250, 264-265: `new Object3D(agent.id, [agent.x, agent.y,
agent.z])` followed by `newAgent.oldPosArray = newAgent.posArray`. -/
def newTracked (r : Record) : Object3D :=
  let newAgent := Object3D.new r.id r.pos
  { newAgent with oldPosArray := some newAgent.posArray }

/-- Lines 89 and 256: `agents.find((object3d) => object3d.id == agent.id)`, the first
object with that id, given by its index in the array. -/
def find (coll : List Object3D) (id : Id) : Option Nat :=
  coll.findIdx? (fun object3d => object3d.id == id)

/-- Lines 94-95 and 260-261 on the object found: `oldPosArray` takes the position held so
far, then `position` takes the coordinates of the record. -/
def moveTo (r : Record) (current : Object3D) : Object3D :=
  { current with oldPosArray := some current.posArray, position := { x := r.x, y := r.y, z := r.z } }

/-- Lines 89-102 and 256-267: one round of the loop of the non-empty branch. -/
def updateOrPush (coll : List Object3D) (r : Record) : List Object3D :=
  match find coll r.id with
  | some k => coll.modify (moveTo r) k
  | none => coll ++ [newTracked r]

/-- Lines 80-85 and 248-252: the loop of the empty branch. A `null` element throws and
leaves in the array what was pushed before it. -/
def createLoop (coll : List Object3D) : List Element → List Object3D × Except Fault Unit
  | [] => (coll, .ok ())
  | .null :: _ => (coll, .error .typeError)
  | .record r :: rest => createLoop (coll ++ [newTracked r]) rest

/-- Lines 88-103 and 255-268: the loop of the non-empty branch. -/
def updateLoop (coll : List Object3D) : List Element → List Object3D × Except Fault Unit
  | [] => (coll, .ok ())
  | .null :: _ => (coll, .error .typeError)
  | .record r :: rest => updateLoop (updateOrPush coll r) rest

/-- Lines 130-133 (and 150-153, 168-171, 186-189, 204-207, 222-225): every record
becomes a new object, pushed without any lookup; the loop assigns nothing to the object
after its construction. -/
def pushLoop (coll : List Object3D) : List Element → List Object3D × Except Fault Unit
  | [] => (coll, .ok ())
  | .null :: _ => (coll, .error .typeError)
  | .record r :: rest => pushLoop (coll ++ [Object3D.new r.id r.pos]) rest

/-- Lines 78-104 and 246-269 once the array field has been read: the branch on the length
of the collection, then one of the two loops. -/
def reconcileElements (coll : List Object3D) (es : List Element) :
    List Object3D × Except Fault Unit :=
  if coll.length == 0 then createLoop coll es else updateLoop coll es

/-- The `else` branch of every function: `let result = await response.json()` and
`console.log("Error:", result.message, result.error)`. -/
def errorBranch (body : Option Json) (w : World) : Outcome :=
  match body with
  | none => (w, .error .syntaxError)
  | some .null => (w, .error .typeError)
  | some (.object _) => ({ w with console := w.console ++ [.serverError] }, .ok ())

/-- The `catch (error) { console.log(error); }` closing every function: a throw in flight
is logged and the function returns normally. -/
def catchLog : Outcome → Outcome
  | (w, .ok ()) => (w, .ok ())
  | (w, .error e) => ({ w with console := w.console ++ [.caught e] }, .ok ())

/-- The call `fetch(agent_server_uri + path)` as seen from outside: the request is sent. -/
def sendRequest (path : Endpoint) (w : World) : World :=
  { w with requests := w.requests ++ [path] }

/-- Reads the expected array field of an OK response: `await response.json()` and
`result.<field>`, with the throws of a body that is not JSON, of a `null` body and of a
field that cannot be iterated. -/
def arrayField (body : Option Json) : Except Fault (List Element) :=
  match body with
  | none => .error .syntaxError
  | some .null => .error .typeError
  | some (.object none) => .error .typeError
  | some (.object (some es)) => .ok es

/-! ## The functions of the module -/

/-- Lines 68-109: the `try` block of `getAgents`. -/
def getAgentsTry (response : Response) (w : World) : Outcome :=
  let w := sendRequest .getAgents w
  match response with
  | .failed => (w, .error .network)
  | .http true body =>
    match arrayField body with
    | .error e => (w, .error e)
    | .ok es =>
      let (agents, thrown) := reconcileElements w.agents es
      ({ w with agents := agents }, thrown)
  | .http false body => errorBranch body w

/-- Lines 67-114: `getAgents`. -/
def getAgents (response : Response) (w : World) : Outcome :=
  catchLog (getAgentsTry response w)

/-- Lines 236-274: the `try` block of `getPedestrians`. -/
def getPedestriansTry (response : Response) (w : World) : Outcome :=
  let w := sendRequest .getPedestrians w
  match response with
  | .failed => (w, .error .network)
  | .http true body =>
    match arrayField body with
    | .error e => (w, .error e)
    | .ok pedList =>
      let (pedestrians, thrown) := reconcileElements w.pedestrians pedList
      ({ w with pedestrians := pedestrians }, thrown)
  | .http false body => errorBranch body w

/-- Lines 235-278: `getPedestrians`. -/
def getPedestrians (response : Response) (w : World) : Outcome :=
  catchLog (getPedestriansTry response w)

/-- The `try` block shared in shape by the six static populators: request, then on an OK
response push every record onto the collection read by `get` and written by `set`. -/
def populateTry (path : Endpoint) (get : World → List Object3D)
    (set : World → List Object3D → World) (response : Response) (w : World) : Outcome :=
  let w := sendRequest path w
  match response with
  | .failed => (w, .error .network)
  | .http true body =>
    match arrayField body with
    | .error e => (w, .error e)
    | .ok es =>
      let (coll, thrown) := pushLoop (get w) es
      (set w coll, thrown)
  | .http false body => errorBranch body w

/-- Lines 119-143: `getObstacles`. -/
def getObstacles (response : Response) (w : World) : Outcome :=
  catchLog (populateTry .getObstacles (fun w => w.obstacles)
    (fun w coll => { w with obstacles := coll }) response w)

/-- Lines 145-161: `getTrafficLights`. -/
def getTrafficLights (response : Response) (w : World) : Outcome :=
  catchLog (populateTry .getTrafficLights (fun w => w.trafficLights)
    (fun w coll => { w with trafficLights := coll }) response w)

/-- Lines 163-179: `getRoads`. -/
def getRoads (response : Response) (w : World) : Outcome :=
  catchLog (populateTry .getRoads (fun w => w.roads)
    (fun w coll => { w with roads := coll }) response w)

/-- Lines 181-197: `getDestinations`. -/
def getDestinations (response : Response) (w : World) : Outcome :=
  catchLog (populateTry .getDestinations (fun w => w.destinations)
    (fun w coll => { w with destinations := coll }) response w)

/-- Lines 199-215: `getSidewalks`. -/
def getSidewalks (response : Response) (w : World) : Outcome :=
  catchLog (populateTry .getSidewalks (fun w => w.sidewalks)
    (fun w coll => { w with sidewalks := coll }) response w)

/-- Lines 217-233: `getPedestrianWalks`. -/
def getPedestrianWalks (response : Response) (w : World) : Outcome :=
  catchLog (populateTry .getPedestrianWalks (fun w => w.pedestrianWalks)
    (fun w coll => { w with pedestrianWalks := coll }) response w)

/-- Lines 285-300: the `try` block of `update`. The three responses are those the server
gives to `update`, `getAgents` and `getPedestrians`; a rejected `await` would throw. -/
def updateTry (tick agentsResponse pedestriansResponse : Response) (w : World) : Outcome :=
  let w := sendRequest .update w
  match tick with
  | .failed => (w, .error .network)
  | .http true _ =>
    match getAgents agentsResponse w with
    | (w, .error e) => (w, .error e)
    | (w, .ok ()) => getPedestrians pedestriansResponse w
  | .http false body => errorBranch body w

/-- Lines 284-306: `update`. -/
def update (tick agentsResponse pedestriansResponse : Response) (w : World) : Outcome :=
  catchLog (updateTry tick agentsResponse pedestriansResponse w)

/-! ## Vocabulary of the statements -/

/-- An OK response whose body carries the well-formed records `fetched` in the expected
array field. -/
def okWith (fetched : List Record) : Response :=
  .http true (some (.object (some (fetched.map Element.record))))

/-- The ids of a collection, in order. -/
def ids (coll : List Object3D) : List Id := coll.map (fun o => o.id)

/-- The records of a fetched list that carry the id `i`, in order. -/
def recordsOf (i : Id) (fetched : List Record) : List Record :=
  fetched.filter (fun r => r.id == i)

/-- How many entities of a collection carry the id `i`. -/
def countId (i : Id) (coll : List Object3D) : Nat := (ids coll).count i

/-- The eight collections of a world, in the order of lines 17-24. -/
def World.collections (w : World) : List (List Object3D) :=
  [w.agents, w.pedestrians, w.obstacles, w.trafficLights, w.roads, w.destinations,
    w.sidewalks, w.pedestrianWalks]

/-- The six static collections of a world. -/
def World.statics (w : World) : List (List Object3D) :=
  [w.obstacles, w.trafficLights, w.roads, w.destinations, w.sidewalks, w.pedestrianWalks]

/-- A tick request fails when it fails in transport or comes back with a non-OK status. -/
def tickFails : Response → Bool
  | .failed => true
  | .http ok _ => !ok

/-- The two dynamic categories, reconciled at every tick. -/
inductive Dynamic where
  | agents
  | pedestrians
deriving DecidableEq, Repr

/-- The collection of a dynamic category. -/
def Dynamic.collection : Dynamic → World → List Object3D
  | .agents, w => w.agents
  | .pedestrians, w => w.pedestrians

/-- The function of the module that fetches a dynamic category. -/
def Dynamic.fetch : Dynamic → Response → World → Outcome
  | .agents => getAgents
  | .pedestrians => getPedestrians

/-- The world after one reconciliation call whose OK response carries `fetched`. -/
def Dynamic.poll (c : Dynamic) (w : World) (fetched : List Record) : World :=
  (c.fetch (okWith fetched) w).1

/-- The collection of a dynamic category after one reconciliation call whose OK response
carries `fetched`. -/
def after (c : Dynamic) (fetched : List Record) (w : World) : List Object3D :=
  c.collection (c.poll w fetched)

/-- What lines 78-104 and 246-269 make of a collection when every element of the fetched
array is a well-formed record. -/
def reconcile (coll : List Object3D) (fetched : List Record) : List Object3D :=
  (reconcileElements coll (fetched.map Element.record)).1

/-- The six static categories, populated once. -/
inductive Static where
  | obstacles
  | trafficLights
  | roads
  | destinations
  | sidewalks
  | pedestrianWalks
deriving DecidableEq, Repr

/-- The collection of a static category. -/
def Static.collection : Static → World → List Object3D
  | .obstacles, w => w.obstacles
  | .trafficLights, w => w.trafficLights
  | .roads, w => w.roads
  | .destinations, w => w.destinations
  | .sidewalks, w => w.sidewalks
  | .pedestrianWalks, w => w.pedestrianWalks

/-- The populator of a static category. -/
def Static.populate : Static → Response → World → Outcome
  | .obstacles => getObstacles
  | .trafficLights => getTrafficLights
  | .roads => getRoads
  | .destinations => getDestinations
  | .sidewalks => getSidewalks
  | .pedestrianWalks => getPedestrianWalks

/-! ## Concrete inputs -/

/-- A world whose only agent has id 1 and rests at the origin. -/
def oneAgent : World :=
  { World.initial with
    agents := [{ id := 1, position := ⟨0, 0, 0⟩, oldPosArray := some ⟨0, 0, 0⟩ }] }

/-- A world whose agents array holds id 1 twice; the second object last moved from
(4,0,0) to (5,0,0). -/
def shadowedAgent : World :=
  { World.initial with
    agents := [{ id := 1, position := ⟨0, 0, 0⟩, oldPosArray := some ⟨0, 0, 0⟩ },
      { id := 1, position := ⟨5, 0, 0⟩, oldPosArray := some ⟨4, 0, 0⟩ }] }

/-- A fetched list that carries id 1 twice, first at (1,0,0), then at (2,0,0). -/
def twiceOne : List Record := [⟨1, 1, 0, 0⟩, ⟨1, 2, 0, 0⟩]

/-- A fetched list that carries id 7 twice, first at (1,0,0), then at (2,0,0). -/
def twiceSeven : List Record := [⟨7, 1, 0, 0⟩, ⟨7, 2, 0, 0⟩]

/-- The first fetch of the scenario of section 8 of the specification. -/
def firstFetch : List Record := [⟨1, 0, 0, 0⟩, ⟨2, 5, 0, 0⟩]

/-- The second fetch of the scenario of section 8 of the specification. -/
def secondFetch : List Record := [⟨1, 1, 0, 0⟩, ⟨3, 9, 0, 0⟩]

/-- A response that is OK but whose body is not JSON. -/
def okUnparseable : Response := .http true none

/-- A non-OK response with a JSON body. -/
def serverError : Response := .http false (some (.object none))


/-! ## The loops on well-formed records -/

theorem updateLoop_records (fetched : List Record) (coll : List Object3D) :
    updateLoop coll (fetched.map Element.record) = (fetched.foldl updateOrPush coll, .ok ()) := by
  induction fetched generalizing coll with
  | nil => rfl
  | cons r rest ih => simp [updateLoop, ih]

theorem createLoop_records (fetched : List Record) (coll : List Object3D) :
    createLoop coll (fetched.map Element.record) = (coll ++ fetched.map newTracked, .ok ()) := by
  induction fetched generalizing coll with
  | nil => simp [createLoop]
  | cons r rest ih => simp [createLoop, ih]

theorem pushLoop_records (fetched : List Record) (coll : List Object3D) :
    pushLoop coll (fetched.map Element.record)
      = (coll ++ fetched.map (fun r => Object3D.new r.id r.pos), .ok ()) := by
  induction fetched generalizing coll with
  | nil => simp [pushLoop]
  | cons r rest ih => simp [pushLoop, ih]

theorem reconcile_nil (fetched : List Record) : reconcile [] fetched = fetched.map newTracked := by
  simp [reconcile, reconcileElements, createLoop_records]

theorem reconcile_of_ne_nil {coll : List Object3D} (h : coll ≠ []) (fetched : List Record) :
    reconcile coll fetched = fetched.foldl updateOrPush coll := by
  have : coll.length ≠ 0 := by simpa using h
  simp [reconcile, reconcileElements, updateLoop_records, this]

theorem after_eq (c : Dynamic) (fetched : List Record) (w : World) :
    after c fetched w = reconcile (c.collection w) fetched := by
  cases c
  · simp only [after, Dynamic.poll, Dynamic.fetch, Dynamic.collection, getAgents, getAgentsTry,
      okWith, arrayField, sendRequest, reconcile]
    rcases reconcileElements w.agents (fetched.map Element.record) with ⟨a, t⟩
    cases t <;> rfl
  · simp only [after, Dynamic.poll, Dynamic.fetch, Dynamic.collection, getPedestrians,
      getPedestriansTry, okWith, arrayField, sendRequest, reconcile]
    rcases reconcileElements w.pedestrians (fetched.map Element.record) with ⟨a, t⟩
    cases t <;> rfl

/-! ## One round of the non-empty loop -/

theorem map_modify_of_inv {α β : Type} (g : α → β) (f : α → α) (hf : ∀ a, g (f a) = g a)
    (l : List α) (k : Nat) : (l.modify f k).map g = l.map g := by
  induction l generalizing k with
  | nil => simp
  | cons a l ih => cases k <;> simp [hf, ih]

theorem find_eq_ids (coll : List Object3D) (i : Id) :
    find coll i = (ids coll).findIdx? (fun j => j == i) := by
  simp [find, ids, List.findIdx?_map, Function.comp_def]

theorem find_eq_none_iff (coll : List Object3D) (i : Id) :
    find coll i = none ↔ i ∉ ids coll := by
  rw [find_eq_ids, List.findIdx?_eq_none_iff]
  constructor
  · intro h hi
    simpa using h i hi
  · intro h x hx
    have : x ≠ i := fun hxi => h (hxi ▸ hx)
    simpa using this

theorem find_some_getElem {coll : List Object3D} {i : Id} {k : Nat} (h : find coll i = some k) :
    ∃ e, coll[k]? = some e ∧ e.id = i := by
  have := List.findIdx?_of_eq_some h
  cases hk : coll[k]? with
  | none => simp [hk] at this
  | some e => exact ⟨e, rfl, by simpa [hk] using this⟩

theorem ids_updateOrPush (coll : List Object3D) (r : Record) :
    ids (updateOrPush coll r) = ids coll ++ (if r.id ∈ ids coll then [] else [r.id]) := by
  unfold updateOrPush
  cases h : find coll r.id with
  | none =>
    have hn := (find_eq_none_iff coll r.id).1 h
    simp only [hn, if_false]
    simp [ids, newTracked, Object3D.new]
  | some k =>
    have hs : r.id ∈ ids coll := by
      by_contra hc
      rw [(find_eq_none_iff coll r.id).2 hc] at h
      cases h
    simp only [hs, if_true, List.append_nil]
    exact map_modify_of_inv (fun o : Object3D => o.id) (moveTo r) (fun a => rfl) coll k

theorem find_updateOrPush {coll : List Object3D} {i : Id} {k : Nat} (h : find coll i = some k)
    (r : Record) : find (updateOrPush coll r) i = some k := by
  rw [find_eq_ids] at h ⊢
  rw [ids_updateOrPush, List.findIdx?_append, h]
  rfl

theorem getElem?_updateOrPush_of_ne {coll : List Object3D} {k : Nat} {e : Object3D}
    (h : coll[k]? = some e) {r : Record} (hne : r.id ≠ e.id) :
    (updateOrPush coll r)[k]? = some e := by
  unfold updateOrPush
  cases hf : find coll r.id with
  | none =>
    have hk : k < coll.length := by
      by_contra hc
      rw [List.getElem?_eq_none (by omega)] at h
      cases h
    simp [List.getElem?_append_left hk, h]
  | some j =>
    obtain ⟨e0, he0, hid⟩ := find_some_getElem hf
    have hjk : j ≠ k := by
      rintro rfl
      rw [he0] at h
      cases h
      exact hne hid.symm
    simp [List.getElem?_modify, h, hjk]

theorem getElem?_updateOrPush_of_find {coll : List Object3D} {k : Nat} {e : Object3D}
    (h : coll[k]? = some e) {r : Record} (hf : find coll r.id = some k) :
    (updateOrPush coll r)[k]? = some (moveTo r e) := by
  unfold updateOrPush
  simp [hf, List.getElem?_modify, h]

theorem length_le_updateOrPush (coll : List Object3D) (r : Record) :
    coll.length ≤ (updateOrPush coll r).length := by
  have := congrArg List.length (ids_updateOrPush coll r)
  simp only [ids, List.length_map, List.length_append] at this
  omega

/-! ## The whole non-empty loop -/

theorem ids_carried_over_foldl (fetched : List Record) (coll : List Object3D) :
    ids coll <+: ids (fetched.foldl updateOrPush coll) := by
  induction fetched generalizing coll with
  | nil => exact List.prefix_refl _
  | cons r rest ih =>
    refine List.IsPrefix.trans ?_ (ih (updateOrPush coll r))
    rw [ids_updateOrPush]
    exact List.prefix_append _ _

theorem getElem?_foldl_of_absent (fetched : List Record) {coll : List Object3D} {k : Nat}
    {e : Object3D} (h : coll[k]? = some e) (habs : ∀ r ∈ fetched, r.id ≠ e.id) :
    (fetched.foldl updateOrPush coll)[k]? = some e := by
  induction fetched generalizing coll with
  | nil => exact h
  | cons r rest ih =>
    have hr : r.id ≠ e.id := habs r (List.mem_cons_self _ _)
    exact ih (getElem?_updateOrPush_of_ne h hr)
      (fun r' hr' => habs r' (List.mem_cons_of_mem _ hr'))

theorem foldl_tracks (fetched : List Record) {coll : List Object3D} {i : Id} {k : Nat}
    {e : Object3D} (hf : find coll i = some k) (h : coll[k]? = some e) :
    find (fetched.foldl updateOrPush coll) i = some k ∧
      (fetched.foldl updateOrPush coll)[k]? =
        some ((recordsOf i fetched).foldl (fun current r => moveTo r current) e) := by
  induction fetched generalizing coll e with
  | nil => exact ⟨hf, h⟩
  | cons r rest ih =>
    obtain ⟨e0, he0, hid⟩ := find_some_getElem hf
    rw [h] at he0
    cases he0
    by_cases hr : r.id = i
    · have hstep := getElem?_updateOrPush_of_find h (hr ▸ hf)
      have := ih (find_updateOrPush hf r) hstep
      simpa [recordsOf, hr] using this
    · have hstep := getElem?_updateOrPush_of_ne h (r := r) (by rw [hid]; exact hr)
      have := ih (find_updateOrPush hf r) hstep
      simpa [recordsOf, hr] using this

theorem mem_ids_updateOrPush {coll : List Object3D} {i : Id} (h : i ∈ ids coll) (r : Record) :
    i ∈ ids (updateOrPush coll r) := by
  rw [ids_updateOrPush]
  exact List.mem_append_left _ h

theorem countId_updateOrPush {coll : List Object3D} {i : Id} (h : i ∈ ids coll) (r : Record) :
    countId i (updateOrPush coll r) = countId i coll := by
  unfold countId
  rw [ids_updateOrPush]
  by_cases hr : r.id ∈ ids coll
  · simp [hr]
  · have : r.id ≠ i := fun hri => hr (hri ▸ h)
    simp [hr, List.count_cons, this]

theorem countId_foldl (fetched : List Record) {coll : List Object3D} {i : Id}
    (h : i ∈ ids coll) : countId i (fetched.foldl updateOrPush coll) = countId i coll := by
  induction fetched generalizing coll with
  | nil => rfl
  | cons r rest ih =>
    exact (ih (mem_ids_updateOrPush h r)).trans (countId_updateOrPush h r)

theorem nodup_ids_updateOrPush {coll : List Object3D} (h : (ids coll).Nodup) (r : Record) :
    (ids (updateOrPush coll r)).Nodup := by
  rw [ids_updateOrPush]
  by_cases hr : r.id ∈ ids coll
  · simpa [hr] using h
  · simp only [hr, if_false]
    exact List.Nodup.append h (List.nodup_singleton _) (by simpa using hr)

theorem nodup_ids_foldl (fetched : List Record) {coll : List Object3D} (h : (ids coll).Nodup) :
    (ids (fetched.foldl updateOrPush coll)).Nodup := by
  induction fetched generalizing coll with
  | nil => exact h
  | cons r rest ih => exact ih (nodup_ids_updateOrPush h r)

theorem recordsOf_eq_nil {i : Id} {fetched : List Record} (h : recordsOf i fetched = []) :
    ∀ r ∈ fetched, r.id ≠ i := by
  intro r hr hri
  have : r ∈ recordsOf i fetched := by simp [recordsOf, hr, hri]
  rw [h] at this
  cases this

theorem foldl_pushes_fresh (fetched : List Record) {coll : List Object3D} {r : Record}
    (hfresh : r.id ∉ ids coll) (hone : recordsOf r.id fetched = [r]) :
    ∃ k, coll.length ≤ k ∧ (fetched.foldl updateOrPush coll)[k]? = some (newTracked r) := by
  induction fetched generalizing coll with
  | nil => simp [recordsOf] at hone
  | cons r0 rest ih =>
    by_cases hr : r0.id = r.id
    · simp only [recordsOf, List.filter_cons, hr, beq_self_eq_true, if_true,
        List.cons.injEq] at hone
      obtain ⟨h0, hrest⟩ := hone
      subst h0
      refine ⟨coll.length, Nat.le_refl _, ?_⟩
      have hpush : updateOrPush coll r0 = coll ++ [newTracked r0] := by
        simp [updateOrPush, (find_eq_none_iff coll r0.id).2 hfresh]
      have hrest' : recordsOf r0.id rest = [] := hrest
      rw [List.foldl_cons, hpush]
      exact getElem?_foldl_of_absent rest (by simp) (recordsOf_eq_nil hrest')
    · have hone' : recordsOf r.id rest = [r] := by
        simpa [recordsOf, List.filter_cons, hr] using hone
      have hfresh' : r.id ∉ ids (updateOrPush coll r0) := by
        rw [ids_updateOrPush]
        by_cases h0 : r0.id ∈ ids coll
        · simpa [h0] using hfresh
        · simp [h0, hfresh, Ne.symm hr]
      obtain ⟨k, hk, hget⟩ := ih hfresh' hone'
      exact ⟨k, Nat.le_trans (length_le_updateOrPush coll r0) hk, hget⟩

theorem updateOrPush_tracks_self (coll : List Object3D) (r : Record) :
    ∃ k e, find (updateOrPush coll r) r.id = some k ∧
      (updateOrPush coll r)[k]? = some e ∧ e.position = r.pos := by
  cases hf : find coll r.id with
  | some j =>
    obtain ⟨e0, he0, _⟩ := find_some_getElem hf
    exact ⟨j, moveTo r e0, find_updateOrPush hf r, getElem?_updateOrPush_of_find he0 hf, rfl⟩
  | none =>
    have hpush : updateOrPush coll r = coll ++ [newTracked r] := by
      simp [updateOrPush, hf]
    refine ⟨coll.length, newTracked r, ?_, ?_, rfl⟩
    · rw [hpush]
      have hf' := hf
      unfold find at hf' ⊢
      rw [List.findIdx?_append, hf']
      simp [newTracked, Object3D.new]
    · simp [hpush]

theorem foldl_twice (fetched : List Record) (coll : List Object3D) {i : Id} {r1 r2 : Record}
    (htwo : recordsOf i fetched = [r1, r2]) :
    ∃ k e, find (fetched.foldl updateOrPush coll) i = some k ∧
      (fetched.foldl updateOrPush coll)[k]? = some e ∧
      e.position = r2.pos ∧ e.oldPosArray = some r1.pos := by
  induction fetched generalizing coll with
  | nil => simp [recordsOf] at htwo
  | cons r rest ih =>
    by_cases hr : r.id = i
    · simp only [recordsOf, List.filter_cons, hr, beq_self_eq_true, if_true,
        List.cons.injEq] at htwo
      obtain ⟨h1, hrest⟩ := htwo
      subst h1
      obtain ⟨k, e1, hfind, hget, hpos⟩ := updateOrPush_tracks_self coll r
      rw [hr] at hfind
      obtain ⟨hfind', hget'⟩ := foldl_tracks rest hfind hget
      have hrest' : recordsOf i rest = [r2] := hrest
      rw [hrest'] at hget'
      refine ⟨k, _, hfind', hget', rfl, ?_⟩
      simp [moveTo, Object3D.posArray, hpos, Record.pos]
    · have htwo' : recordsOf i rest = [r1, r2] := by
        simpa [recordsOf, List.filter_cons, hr] using htwo
      exact ih (updateOrPush coll r) htwo'

theorem ids_carried_over (c : Dynamic) (w : World) (fetched : List Record) :
    ids (c.collection w) <+: ids (after c fetched w) := by
  rw [after_eq]
  by_cases hnil : c.collection w = []
  · rw [hnil]
    exact List.nil_prefix
  · rw [reconcile_of_ne_nil hnil]
    exact ids_carried_over_foldl fetched _

/-! ## The functions never reject -/

theorem catchLog_snd (o : Outcome) : (catchLog o).2 = .ok () := by
  rcases o with ⟨w, _ | _⟩ <;> rfl

theorem catchLog_of_ok (w : World) : catchLog (w, .ok ()) = (w, .ok ()) := rfl

theorem getAgents_eq (response : Response) (w : World) :
    getAgents response w = ((getAgents response w).1, .ok ()) :=
  Prod.ext rfl (catchLog_snd _)

theorem getPedestrians_eq (response : Response) (w : World) :
    getPedestrians response w = ((getPedestrians response w).1, .ok ()) :=
  Prod.ext rfl (catchLog_snd _)

/-- The `try` blocks do throw: without its `catch`, `getAgents` would reject on a failed
request, on a body that is not JSON, on a missing array and on a `null` element. -/
theorem getAgentsTry_throws (w : World) :
    (getAgentsTry .failed w).2 = .error .network ∧
    (getAgentsTry okUnparseable w).2 = .error .syntaxError ∧
    (getAgentsTry (.http true (some (.object none))) w).2 = .error .typeError ∧
    (getAgentsTry (.http true (some (.object (some [.null])))) w).2 = .error .typeError := by
  refine ⟨rfl, rfl, rfl, ?_⟩
  simp only [getAgentsTry, arrayField, reconcileElements, sendRequest]
  split <;> rfl

/-! ## What the dynamic fetches leave alone -/

theorem errorBranch_frame (body : Option Json) (w : World) :
    (catchLog (errorBranch body w)).1.collections = w.collections ∧
    (catchLog (errorBranch body w)).1.requests = w.requests := by
  rcases body with _ | _ | _ <;> exact ⟨rfl, rfl⟩

theorem getAgents_statics (response : Response) (w : World) :
    (getAgents response w).1.statics = w.statics ∧
    (getAgents response w).1.pedestrians = w.pedestrians := by
  unfold getAgents getAgentsTry
  rcases response with _ | ⟨_ | _, body⟩
  · exact ⟨rfl, rfl⟩
  · rcases body with _ | _ | _ <;> exact ⟨rfl, rfl⟩
  · rcases body with _ | _ | _ | es
    · exact ⟨rfl, rfl⟩
    · exact ⟨rfl, rfl⟩
    · exact ⟨rfl, rfl⟩
    · simp only [arrayField, sendRequest]
      rcases reconcileElements w.agents es with ⟨a, _ | _⟩ <;> exact ⟨rfl, rfl⟩

theorem getPedestrians_statics (response : Response) (w : World) :
    (getPedestrians response w).1.statics = w.statics ∧
    (getPedestrians response w).1.agents = w.agents := by
  unfold getPedestrians getPedestriansTry
  rcases response with _ | ⟨_ | _, body⟩
  · exact ⟨rfl, rfl⟩
  · rcases body with _ | _ | _ <;> exact ⟨rfl, rfl⟩
  · rcases body with _ | _ | _ | es
    · exact ⟨rfl, rfl⟩
    · exact ⟨rfl, rfl⟩
    · exact ⟨rfl, rfl⟩
    · simp only [arrayField, sendRequest]
      rcases reconcileElements w.pedestrians es with ⟨a, _ | _⟩ <;> exact ⟨rfl, rfl⟩

theorem update_of_ok (body : Option Json) (agentsResponse pedestriansResponse : Response)
    (w : World) :
    update (.http true body) agentsResponse pedestriansResponse w =
      getPedestrians pedestriansResponse (getAgents agentsResponse (sendRequest .update w)).1 := by
  unfold update updateTry
  simp only []
  rw [getAgents_eq agentsResponse (sendRequest .update w)]
  simp only []
  rw [getPedestrians_eq]
  rfl

theorem populate_records (s : Static) (fetched : List Record) (w : World) :
    s.collection (s.populate (okWith fetched) w).1 =
      s.collection w ++ fetched.map (fun r => Object3D.new r.id r.pos) := by
  cases s <;>
    simp [Static.collection, Static.populate, getObstacles, getTrafficLights, getRoads,
      getDestinations, getSidewalks, getPedestrianWalks, populateTry, okWith, arrayField,
      sendRequest, pushLoop_records, catchLog]

/-! ## The claims -/

/-- C1, as stated, fails. With one agent of id 1 at the origin and a fetched list that
carries id 1 twice, the agent ends with the first record as its previous position, not
with the position it had before the call; and in a collection that holds id 1 twice the
second object is never found, so its previous position is not refreshed. -/
theorem identity_preservation_counterexample :
    (¬ ∀ (k : Nat) (e : Object3D), oneAgent.agents[k]? = some e →
        e.id ∈ twiceOne.map (fun r => r.id) →
        countId e.id (after .agents twiceOne oneAgent) = countId e.id oneAgent.agents ∧
        ∃ e', (after .agents twiceOne oneAgent)[k]? = some e' ∧
          e'.oldPosArray = some e.posArray) ∧
    (¬ ∀ (k : Nat) (e : Object3D), shadowedAgent.agents[k]? = some e →
        e.id ∈ [(⟨1, 1, 0, 0⟩ : Record)].map (fun r => r.id) →
        countId e.id (after .agents [⟨1, 1, 0, 0⟩] shadowedAgent)
          = countId e.id shadowedAgent.agents ∧
        ∃ e', (after .agents [⟨1, 1, 0, 0⟩] shadowedAgent)[k]? = some e' ∧
          e'.oldPosArray = some e.posArray) := by
  constructor
  · intro h
    obtain ⟨_, e', h1, h2⟩ := h 0 ⟨1, ⟨0, 0, 0⟩, some ⟨0, 0, 0⟩⟩ (by decide) (by decide)
    have h3 : (after .agents twiceOne oneAgent)[0]? = some ⟨1, ⟨2, 0, 0⟩, some ⟨1, 0, 0⟩⟩ := by
      decide
    rw [h3] at h1
    cases h1
    revert h2
    decide
  · intro h
    obtain ⟨_, e', h1, h2⟩ := h 1 ⟨1, ⟨5, 0, 0⟩, some ⟨4, 0, 0⟩⟩ (by decide) (by decide)
    have h3 : (after .agents [⟨1, 1, 0, 0⟩] shadowedAgent)[1]?
        = some ⟨1, ⟨5, 0, 0⟩, some ⟨4, 0, 0⟩⟩ := by
      decide
    rw [h3] at h1
    cases h1
    revert h2
    decide

/-- C1, as amended. For either dynamic category, every collection and every fetched list:
an entity that is the first of the collection to carry its id, and whose id is carried by
exactly one fetched record, is not duplicated by the call (as many entities carry its id
afterwards as before), stays at its place with its id, has the position it held before the
call as its previous position, and the coordinates of that record as its position. -/
theorem identity_preservation (c : Dynamic) (w : World) (fetched : List Record) (k : Nat)
    (e : Object3D) (r : Record)
    (hk : (c.collection w)[k]? = some e)
    (hfirst : find (c.collection w) e.id = some k)
    (honce : recordsOf e.id fetched = [r]) :
    countId e.id (after c fetched w) = countId e.id (c.collection w) ∧
    (after c fetched w)[k]? =
      some { id := e.id, position := { x := r.x, y := r.y, z := r.z },
             oldPosArray := some e.posArray } := by
  have hne : c.collection w ≠ [] := by
    intro hnil
    rw [hnil] at hk
    cases hk
  have hmem : e.id ∈ ids (c.collection w) := by
    by_contra hc
    rw [(find_eq_none_iff _ _).2 hc] at hfirst
    cases hfirst
  rw [after_eq, reconcile_of_ne_nil hne]
  refine ⟨countId_foldl fetched hmem, ?_⟩
  have := (foldl_tracks fetched hfirst hk).2
  rw [honce] at this
  exact this

/-- C1, witnessed on the agent at the origin when the server moves it to (1,0,0). -/
theorem identity_preservation_witness :
    (oneAgent.agents[0]? = some ⟨1, ⟨0, 0, 0⟩, some ⟨0, 0, 0⟩⟩ ∧
      find oneAgent.agents 1 = some 0 ∧
      recordsOf 1 [⟨1, 1, 0, 0⟩] = [⟨1, 1, 0, 0⟩]) ∧
    countId 1 (after .agents [⟨1, 1, 0, 0⟩] oneAgent) = countId 1 oneAgent.agents ∧
    (after .agents [⟨1, 1, 0, 0⟩] oneAgent)[0]? =
      some { id := 1, position := { x := 1, y := 0, z := 0 },
             oldPosArray := some { x := 0, y := 0, z := 0 } } :=
  ⟨⟨by decide, by decide, by decide⟩,
    identity_preservation .agents oneAgent [⟨1, 1, 0, 0⟩] 0
      ⟨1, ⟨0, 0, 0⟩, some ⟨0, 0, 0⟩⟩ ⟨1, 1, 0, 0⟩ (by decide) (by decide) (by decide)⟩

/-- C2, as stated, fails. With one agent of id 1 and a fetched list that carries the new
id 7 twice, no entity ends with the first record of id 7 as both its position and its
previous position: the second record has moved the entity the first one created. -/
theorem new_entity_insertion_counterexample :
    ¬ ∀ r ∈ twiceSeven, r.id ∉ ids oneAgent.agents →
        ∃ e ∈ after .agents twiceSeven oneAgent,
          e.id = r.id ∧ e.position = ⟨r.x, r.y, r.z⟩ ∧ e.oldPosArray = some ⟨r.x, r.y, r.z⟩ := by
  decide

/-- C2, as amended. For either dynamic category, every collection and every fetched list:
a fetched record whose id is absent from the collection and, unless the collection is
empty, is carried by no other fetched record, is found after the call at a place past the
old end of the collection, as an entity with that id whose position and previous position
are both the coordinates of the record. -/
theorem new_entity_insertion (c : Dynamic) (w : World) (fetched : List Record) (r : Record)
    (hmem : r ∈ fetched)
    (habsent : r.id ∉ ids (c.collection w))
    (hsingle : c.collection w = [] ∨ recordsOf r.id fetched = [r]) :
    ∃ k, (c.collection w).length ≤ k ∧
      (after c fetched w)[k]? =
        some { id := r.id, position := { x := r.x, y := r.y, z := r.z },
               oldPosArray := some { x := r.x, y := r.y, z := r.z } } := by
  rw [after_eq]
  by_cases hnil : c.collection w = []
  · rw [hnil, reconcile_nil]
    obtain ⟨k, hk, hget⟩ := List.getElem_of_mem hmem
    refine ⟨k, by simp, ?_⟩
    rw [List.getElem?_map, List.getElem?_eq_getElem hk, hget]
    rfl
  · rw [reconcile_of_ne_nil hnil]
    rcases hsingle with h | h
    · exact absurd h hnil
    · exact foldl_pushes_fresh fetched habsent h

/-- C2, witnessed on the agent at the origin when the server reports a new agent 3. -/
theorem new_entity_insertion_witness :
    ((⟨3, 9, 0, 0⟩ : Record) ∈ secondFetch ∧ (3 : Id) ∉ ids oneAgent.agents ∧
      recordsOf 3 secondFetch = [⟨3, 9, 0, 0⟩]) ∧
    ∃ k, oneAgent.agents.length ≤ k ∧
      (after .agents secondFetch oneAgent)[k]? =
        some { id := 3, position := { x := 9, y := 0, z := 0 },
               oldPosArray := some { x := 9, y := 0, z := 0 } } :=
  ⟨⟨by decide, by decide, by decide⟩,
    new_entity_insertion .agents oneAgent secondFetch ⟨3, 9, 0, 0⟩ (by decide) (by decide)
      (Or.inr (by decide))⟩

/-- C3. For either dynamic category, every collection and every fetched list: an entity
whose id is carried by no fetched record is, after the call, at the same place with the
same id, the same position and the same previous position. -/
theorem untouched_survivors (c : Dynamic) (w : World) (fetched : List Record) (k : Nat)
    (e : Object3D)
    (hk : (c.collection w)[k]? = some e)
    (habsent : e.id ∉ fetched.map (fun r => r.id)) :
    (after c fetched w)[k]? = some e := by
  have hne : c.collection w ≠ [] := by
    intro hnil
    rw [hnil] at hk
    cases hk
  rw [after_eq, reconcile_of_ne_nil hne]
  refine getElem?_foldl_of_absent fetched hk ?_
  intro r hr hid
  exact habsent (List.mem_map.2 ⟨r, hr, hid⟩)

/-- C3, witnessed on agent 2 of the scenario, which the second fetch does not mention. -/
theorem untouched_survivors_witness :
    ((Dynamic.poll .agents World.initial firstFetch).agents[1]? =
        some ⟨2, ⟨5, 0, 0⟩, some ⟨5, 0, 0⟩⟩ ∧
      (2 : Id) ∉ secondFetch.map (fun r => r.id)) ∧
    (after .agents secondFetch (Dynamic.poll .agents World.initial firstFetch))[1]? =
      some { id := 2, position := ⟨5, 0, 0⟩, oldPosArray := some ⟨5, 0, 0⟩ } :=
  ⟨⟨by decide, by decide⟩,
    untouched_survivors .agents (Dynamic.poll .agents World.initial firstFetch) secondFetch 1
      ⟨2, ⟨5, 0, 0⟩, some ⟨5, 0, 0⟩⟩ (by decide) (by decide)⟩

/-- C4. For either dynamic category, every collection and every fetched list: the ids of
the collection before the call are a prefix of its ids after the call, and the collection
does not get shorter. -/
theorem no_pruning_stable_order (c : Dynamic) (w : World) (fetched : List Record) :
    ids (c.collection w) <+: ids (after c fetched w) ∧
    (c.collection w).length ≤ (after c fetched w).length := by
  have hp := ids_carried_over c w fetched
  refine ⟨hp, ?_⟩
  have := hp.length_le
  simpa [ids] using this

/-- C5, as stated, fails. The empty agents collection has pairwise distinct ids, yet after
a fetched list that carries id 1 twice it holds two entities of id 1: the branch of the
empty collection pushes every record without looking it up. -/
theorem id_uniqueness_counterexample :
    (ids World.initial.agents).Nodup ∧ ¬ (ids (after .agents twiceOne World.initial)).Nodup := by
  decide

/-- C5, as amended. For either dynamic category and every collection whose ids are
pairwise distinct: after any sequence of reconciliation calls, the ids are pairwise
distinct, provided the collection is non-empty at the start or every fetched list of the
sequence has pairwise distinct ids. A single call is a sequence of one, and the
collections reachable from the empty one are those of the sequences run from
`World.initial`. -/
theorem id_uniqueness (c : Dynamic) (w : World) (batches : List (List Record))
    (hunique : (ids (c.collection w)).Nodup)
    (hclean : c.collection w ≠ [] ∨ ∀ fetched ∈ batches, (fetched.map (fun r => r.id)).Nodup) :
    (ids (c.collection (batches.foldl c.poll w))).Nodup := by
  induction batches generalizing w with
  | nil => exact hunique
  | cons fetched rest ih =>
    have hstep : (ids (after c fetched w)).Nodup := by
      rw [after_eq]
      by_cases hnil : c.collection w = []
      · rcases hclean with h | h
        · exact absurd hnil h
        · rw [hnil, reconcile_nil]
          have := h fetched (List.mem_cons_self _ _)
          simpa [ids, newTracked, Object3D.new, Function.comp_def] using this
      · rw [reconcile_of_ne_nil hnil]
        exact nodup_ids_foldl fetched hunique
    refine ih (c.poll w fetched) hstep ?_
    rcases hclean with h | h
    · left
      intro hnil
      have hle := (ids_carried_over c w fetched).length_le
      have hlen : (after c fetched w).length = 0 := by
        show (c.collection (c.poll w fetched)).length = 0
        rw [hnil]
        rfl
      simp only [ids, List.length_map] at hle
      exact h (List.length_eq_zero.1 (by omega))
    · right
      exact fun f hf => h f (List.mem_cons_of_mem _ hf)

/-- C5, witnessed on the two fetches of the scenario, run from the empty collection. -/
theorem id_uniqueness_witness :
    ((ids World.initial.agents).Nodup ∧
      ∀ fetched ∈ [firstFetch, secondFetch], (fetched.map (fun r => r.id)).Nodup) ∧
    (ids (Dynamic.collection .agents
      ([firstFetch, secondFetch].foldl (Dynamic.poll .agents) World.initial))).Nodup :=
  ⟨⟨by decide, by decide⟩,
    id_uniqueness .agents World.initial [firstFetch, secondFetch] (by decide)
      (Or.inr (by decide))⟩

/-- C6, as stated, fails. On the empty agents collection a fetched list that carries id 1
in exactly two records, at (1,0,0) and then at (2,0,0), is not reconciled twice: two
entities are pushed, and none has (2,0,0) as position and (1,0,0) as previous position. -/
theorem duplicate_in_fetch_counterexample :
    recordsOf 1 twiceOne = [⟨1, 1, 0, 0⟩, ⟨1, 2, 0, 0⟩] ∧
    ¬ ∃ e ∈ after .agents twiceOne World.initial,
        e.id = 1 ∧ e.position = ⟨2, 0, 0⟩ ∧ e.oldPosArray = some ⟨1, 0, 0⟩ := by
  decide

/-- C6, as amended. For either dynamic category, every non-empty collection and every
fetched list in which an id `i` is carried by exactly two records, `r1` and then `r2`:
after the call, the first entity of id `i` has the coordinates of `r2` as its position
and those of `r1` as its previous position. -/
theorem duplicate_in_fetch (c : Dynamic) (w : World) (fetched : List Record) (i : Id)
    (r1 r2 : Record)
    (hne : c.collection w ≠ [])
    (htwo : recordsOf i fetched = [r1, r2]) :
    ∃ k e, find (after c fetched w) i = some k ∧ (after c fetched w)[k]? = some e ∧
      e.id = i ∧ e.position = { x := r2.x, y := r2.y, z := r2.z } ∧
      e.oldPosArray = some { x := r1.x, y := r1.y, z := r1.z } := by
  rw [after_eq, reconcile_of_ne_nil hne]
  obtain ⟨k, e, hfind, hget, hpos, hold⟩ := foldl_twice fetched (c.collection w) htwo
  obtain ⟨e0, he0, hid⟩ := find_some_getElem hfind
  rw [hget] at he0
  cases he0
  exact ⟨k, e, hfind, hget, hid, hpos, hold⟩

/-- C6, witnessed on the agent at the origin when the server reports it twice. -/
theorem duplicate_in_fetch_witness :
    (oneAgent.agents ≠ [] ∧ recordsOf 1 twiceOne = [⟨1, 1, 0, 0⟩, ⟨1, 2, 0, 0⟩]) ∧
    ∃ k e, find (after .agents twiceOne oneAgent) 1 = some k ∧
      (after .agents twiceOne oneAgent)[k]? = some e ∧
      e.id = 1 ∧ e.position = { x := 2, y := 0, z := 0 } ∧
      e.oldPosArray = some { x := 1, y := 0, z := 0 } :=
  ⟨⟨by decide, by decide⟩,
    duplicate_in_fetch .agents oneAgent twiceOne 1 ⟨1, 1, 0, 0⟩ ⟨1, 2, 0, 0⟩ (by decide)
      (by decide)⟩

/-- C7. For every world and every three responses of the server: when the tick request
fails (in transport or with a non-OK status), `update` leaves the eight collections as
they were and sends no request but the tick; when it succeeds, `update` ends in the world
in which `getAgents` and then `getPedestrians` end after the tick request, and the six
static collections are as they were. -/
theorem tick_gating (tick agentsResponse pedestriansResponse : Response) (w : World) :
    (tickFails tick = true →
      (update tick agentsResponse pedestriansResponse w).1.collections = w.collections ∧
      (update tick agentsResponse pedestriansResponse w).1.requests
        = w.requests ++ [Endpoint.update]) ∧
    (tickFails tick = false →
      (update tick agentsResponse pedestriansResponse w).1 =
        (getPedestrians pedestriansResponse
          (getAgents agentsResponse (sendRequest .update w)).1).1 ∧
      (update tick agentsResponse pedestriansResponse w).1.statics = w.statics) := by
  rcases tick with _ | ⟨_ | _, body⟩
  · exact ⟨fun _ => ⟨rfl, rfl⟩, fun h => by cases h⟩
  · refine ⟨fun _ => ?_, fun h => by cases h⟩
    exact errorBranch_frame body (sendRequest .update w)
  · refine ⟨fun h => (by cases h), fun _ => ?_⟩
    rw [update_of_ok]
    refine ⟨rfl, ?_⟩
    rw [(getPedestrians_statics _ _).1, (getAgents_statics _ _).1]
    rfl

/-- C7, witnessed on a tick that fails in transport and on a tick that succeeds. -/
theorem tick_gating_witness :
    (tickFails .failed = true ∧ tickFails (okWith []) = false) ∧
    ((update .failed (okWith firstFetch) (okWith secondFetch) oneAgent).1.collections
        = oneAgent.collections ∧
      (update .failed (okWith firstFetch) (okWith secondFetch) oneAgent).1.requests
        = oneAgent.requests ++ [Endpoint.update]) ∧
    ((update (okWith []) (okWith firstFetch) (okWith secondFetch) oneAgent).1 =
        (getPedestrians (okWith secondFetch)
          (getAgents (okWith firstFetch) (sendRequest .update oneAgent)).1).1 ∧
      (update (okWith []) (okWith firstFetch) (okWith secondFetch) oneAgent).1.statics
        = oneAgent.statics) :=
  ⟨⟨by decide, by decide⟩,
    (tick_gating .failed (okWith firstFetch) (okWith secondFetch) oneAgent).1 (by decide),
    (tick_gating (okWith []) (okWith firstFetch) (okWith secondFetch) oneAgent).2 (by decide)⟩

/-- C8. For each of the six static populators and every OK response carrying the records
`fetched`: run once on the empty collection, the populator yields a collection of the size
of `fetched` whose entities carry, in order, the id and the coordinates of the records,
and every one of them has its previous position equal to its position. -/
theorem static_population (s : Static) (w : World) (fetched : List Record)
    (hempty : s.collection w = []) :
    (s.collection (s.populate (okWith fetched) w).1).length = fetched.length ∧
    s.collection (s.populate (okWith fetched) w).1 =
      fetched.map (fun r =>
        { id := r.id, position := { x := r.x, y := r.y, z := r.z },
          oldPosArray := some { x := r.x, y := r.y, z := r.z } }) ∧
    (∀ e ∈ s.collection (s.populate (okWith fetched) w).1,
      e.oldPosArray = some e.posArray) := by
  rw [populate_records, hempty]
  refine ⟨by simp, rfl, ?_⟩
  intro e he
  simp only [List.nil_append, List.mem_map] at he
  obtain ⟨r, _, rfl⟩ := he
  rfl

/-- C8, witnessed on `getRoads` answered with the two records of the first fetch. -/
theorem static_population_witness :
    Static.collection .roads oneAgent = [] ∧
    (Static.collection .roads (Static.populate .roads (okWith firstFetch) oneAgent).1).length
      = firstFetch.length ∧
    Static.collection .roads (Static.populate .roads (okWith firstFetch) oneAgent).1 =
      firstFetch.map (fun r =>
        { id := r.id, position := { x := r.x, y := r.y, z := r.z },
          oldPosArray := some { x := r.x, y := r.y, z := r.z } }) ∧
    (∀ e ∈ Static.collection .roads (Static.populate .roads (okWith firstFetch) oneAgent).1,
      e.oldPosArray = some e.posArray) :=
  ⟨by decide, static_population .roads oneAgent firstFetch (by decide)⟩

/-- C9. For every world and every response of the server (failed in transport, non-OK with
or without a JSON body, OK with a body that is not JSON, `null`, without the array or with
a `null` element), `update`, `getAgents`, `getPedestrians` and the six static populators
return normally: the promise of each is fulfilled, never rejected. -/
theorem no_fault_propagates (tick response other : Response) (w : World) :
    (update tick response other w).2 = .ok () ∧
    (getAgents response w).2 = .ok () ∧
    (getPedestrians response w).2 = .ok () ∧
    (getObstacles response w).2 = .ok () ∧
    (getTrafficLights response w).2 = .ok () ∧
    (getRoads response w).2 = .ok () ∧
    (getDestinations response w).2 = .ok () ∧
    (getSidewalks response w).2 = .ok () ∧
    (getPedestrianWalks response w).2 = .ok () :=
  ⟨catchLog_snd _, catchLog_snd _, catchLog_snd _, catchLog_snd _, catchLog_snd _,
    catchLog_snd _, catchLog_snd _, catchLog_snd _, catchLog_snd _⟩

/-- C10. From the empty agents collection, the first fetch of the scenario yields two
entities whose previous position is their position; the second fetch then yields three
entities in the order 1, 2, 3: entity 1 moved from (0,0,0) to (1,0,0), entity 2 unchanged
at (5,0,0), entity 3 new at (9,0,0) with its previous position equal to its position. -/
theorem concrete_scenario :
    (getAgents (okWith firstFetch) World.initial).1.agents =
      [{ id := 1, position := ⟨0, 0, 0⟩, oldPosArray := some ⟨0, 0, 0⟩ },
       { id := 2, position := ⟨5, 0, 0⟩, oldPosArray := some ⟨5, 0, 0⟩ }] ∧
    (getAgents (okWith secondFetch) (getAgents (okWith firstFetch) World.initial).1).1.agents =
      [{ id := 1, position := ⟨1, 0, 0⟩, oldPosArray := some ⟨0, 0, 0⟩ },
       { id := 2, position := ⟨5, 0, 0⟩, oldPosArray := some ⟨5, 0, 0⟩ },
       { id := 3, position := ⟨9, 0, 0⟩, oldPosArray := some ⟨9, 0, 0⟩ }] := by
  decide

end ApiConnection
